import Mathlib

/-!
Verification development for the poisson-ticker repository.

Shallow embedding conventions:
* `std::time::Instant` values are nanosecond offsets from an arbitrary epoch,
  represented as `Nat`; `Instant::checked_duration_since(earlier)` is `none`
  exactly when the instant is earlier than `earlier`, and `Duration` values
  are `Nat` nanoseconds.  Durations reported by the source through
  `Duration::as_secs_f64` are kept in nanoseconds here (the source only
  divides by 1e9 when reporting).
* `u64`/`usize` values are `Nat`; casts from `f64` saturate at `2^64 - 1`
  and truncate toward zero, as the Rust `as` cast does.
* The few `f64` quantities (interarrival means, quantile arithmetic) are
  modelled as exact rationals, with positive infinity represented explicitly
  where the source can produce it (`1e9 / 0.0`).
* Randomness is passed in explicitly: sampling functions receive the drawn
  value (already cast to `u64`) as an argument.
* Fallible functions return `Except String`; where a Rust panic (as opposed
  to a returned `Err`) matters, the three-valued `RunResult` distinguishes
  `ok`, recoverable `err`, and `panicked`.
-/

/-! ## Embedding of src/lib.rs -/

/-- Rust `core::task::Poll`. -/
inductive Poll (α : Type) where
  | ready (a : α)
  | pending
deriving DecidableEq

/-- Functorial action of `Poll`, Rust `Poll::map`. -/
def Poll.map {α β : Type} (f : α → β) : Poll α → Poll β
  | .ready a => .ready (f a)
  | .pending => .pending

/-- State of `SpinTimer` (src/lib.rs lines 60-64): an exponential
distribution (fully determined by `mean_ns`, since `lambda = 1/mean_ns`),
the mean in nanoseconds, and an optional diagnostic id.  There are no
other fields. -/
structure SpinTimer where
  mean_ns : Nat
  id : Option Nat
deriving DecidableEq

/-- Observable outcome of one `SpinTimer::wait` call: the duration (ns)
until the returned future resolves (`next_time - now`), and the two
diagnostic log events. -/
structure SpinWaitOutcome where
  wait_ns : Nat
  warned_suspicious : Bool
  clamped_short : Bool
deriving DecidableEq

/-- One call of `SpinTimer::wait` (src/lib.rs lines 89-119), given the
sampled interarrival (already cast to `u64` ns).  The source logs a warning
when the sample exceeds `mean_ns * 10`, clamps samples below 100 ns up to
100 ns, and returns a future that busy-yields until `now + next_dur`; the
timer state is read but never written, which the returned unchanged
state records. -/
def SpinTimer.waitStep (t : SpinTimer) (sampled_ns : Nat) : SpinWaitOutcome × SpinTimer :=
  let warned := decide (t.mean_ns * 10 < sampled_ns)
  let clamped := decide (sampled_ns < 100)
  let next_interarrival_ns := if sampled_ns < 100 then 100 else sampled_ns
  (⟨next_interarrival_ns, warned, clamped⟩, t)

/-- Polling the future stored by `SpinTicker` (src/lib.rs lines 114-118):
it is ready exactly when wall-clock time has reached `next_time`. -/
def SpinTicker.pollStep (now_reached_target : Bool) : Poll Unit :=
  if now_reached_target then .ready () else .pending

/-- `<SpinTicker as Stream>::poll_next` (src/lib.rs lines 42-48): the
poll result of the future mapped through `Some`.  A `ready none` (Rust
`Poll::Ready(None)`, end of stream) is never produced. -/
def SpinTicker.stream_poll_next (now_reached_target : Bool) : Poll (Option Unit) :=
  (SpinTicker.pollStep now_reached_target).map some

/-- State of `TimerTicker` relevant to polling (src/lib.rs lines 136-142):
the restart flag plus the distribution mean and diagnostic id. -/
structure TimerTickerState where
  should_restart : Bool
  mean_ns : Nat
  id : Option Nat
deriving DecidableEq

/-- One call of `<TimerTicker as Future>::poll` (src/lib.rs lines 172-225),
given the freshly sampled interarrival (used only when `should_restart`)
and whether the armed OS timer reports completion when polled. -/
def TimerTicker.pollStep (t : TimerTickerState) (sampled_ns : Nat) (timer_fired : Bool) :
    Poll Unit × TimerTickerState :=
  if t.should_restart then
    if sampled_ns < 100 then
      (.ready (), { t with should_restart := true })
    else
      if timer_fired then (.ready (), { t with should_restart := true })
      else (.pending, { t with should_restart := false })
  else
    if timer_fired then (.ready (), { t with should_restart := true })
    else (.pending, t)

/-- `<TimerTicker as Stream>::poll_next` (src/lib.rs lines 227-233): the
poll result mapped through `Some`; end of stream is never signalled. -/
def TimerTicker.stream_poll_next (t : TimerTickerState) (sampled_ns : Nat) (timer_fired : Bool) :
    Poll (Option Unit) × TimerTickerState :=
  let r := TimerTicker.pollStep t sampled_ns timer_fired
  (r.1.map some, r.2)

/-! ## Embedding of src/histogram.rs : ManualHistogram -/

/-- `ManualHistogram` (src/histogram.rs lines 219-225). -/
structure ManualHistogram where
  current_count : Nat
  latencies : List Nat
  sorted_latencies : List Nat
  is_sorted : Bool
deriving DecidableEq

/-- `ManualHistogram::new` (lines 240-247): a zero-filled backing buffer of
`num_values` entries and no recorded values. -/
def ManualHistogram.new (num_values : Nat) : ManualHistogram :=
  ⟨0, List.replicate num_values 0, [], false⟩

/-- `ManualHistogram::new_from_vec` (lines 228-235). -/
def ManualHistogram.new_from_vec (vals : List Nat) : ManualHistogram :=
  ⟨vals.length, vals, [], false⟩

/-- `ManualHistogram::len` (lines 249-251). -/
def ManualHistogram.len (h : ManualHistogram) : Nat := h.current_count

/-- `ManualHistogram::latencies_vec` (lines 237-239): the active region of
the backing buffer. -/
def ManualHistogram.latencies_vec (h : ManualHistogram) : List Nat :=
  h.latencies.take h.current_count

/-- `ManualHistogram::record` (lines 257-264): write into the preallocated
slot, or push when the buffer is full. -/
def ManualHistogram.record (h : ManualHistogram) (val : Nat) : ManualHistogram :=
  if h.current_count = h.latencies.length then
    { h with latencies := h.latencies ++ [val], current_count := h.current_count + 1 }
  else
    { h with latencies := h.latencies.set h.current_count val,
             current_count := h.current_count + 1 }

/-- Folding `record` over a list of values, in order. -/
def ManualHistogram.recordAll (h : ManualHistogram) (vals : List Nat) : ManualHistogram :=
  vals.foldl ManualHistogram.record h

/-- `ManualHistogram::sort` (lines 266-271): copy the active region into
`sorted_latencies` in ascending order and set the flag.  `Vec::sort` is a
stable sort, and over `u64` (a linear order) the ascending reordering of a
list is unique, so any sorting algorithm gives the same list; we use
insertion sort.  The source returns `Result` but never fails. -/
def ManualHistogram.sort (h : ManualHistogram) : ManualHistogram :=
  { h with
    sorted_latencies := List.insertionSort (· ≤ ·) (h.latencies.take h.current_count),
    is_sorted := true }

/-- Index computed by `ManualHistogram::value_at_quantile` (line 276):
`(len as f64 * quantile) as usize`.  The product is modelled as exact
rational arithmetic; the `as usize` cast truncates toward zero and clamps
negative values to 0, which `Int.toNat ∘ Int.floor` reproduces for the
values in range. -/
def quantileIndex (len : Nat) (quantile : ℚ) : Nat :=
  (⌊(len : ℚ) * quantile⌋).toNat

/-- `ManualHistogram::value_at_quantile` (lines 272-278): fails when
`sorted_latencies` is empty (which is the case exactly until `sort` runs),
otherwise indexes the sorted copy; an out-of-range index is a Rust panic,
modelled as the distinguished error "index out of bounds". -/
def ManualHistogram.value_at_quantile (h : ManualHistogram) (quantile : ℚ) : Except String Nat :=
  if h.sorted_latencies.length = 0 then
    .error "Cannot run value_at_quantile until sort() has been called."
  else
    match h.sorted_latencies[quantileIndex h.sorted_latencies.length quantile]? with
    | some v => .ok v
    | none => .error "index out of bounds"

/-! ## Embedding of src/histogram.rs : LatencyMap -/

/-- `LatencyMap` (src/histogram.rs lines 6-11): a map from request id to
(sent instant, optional received instant).  The `BTreeMap` is modelled as
an association list with distinct keys; all operations below preserve key
distinctness and only ever access it through `get`, so the ordering of
entries is irrelevant. -/
abbrev LatencyMap := List (Nat × Nat × Option Nat)

/-- `BTreeMap::get` (used at src/histogram.rs lines 55-57 and inside
`histogram_from_id_range`). -/
def LatencyMap.get (m : LatencyMap) (request_id : Nat) : Option (Nat × Option Nat) :=
  (m.find? (fun e => e.1 == request_id)).map (fun e => e.2)

/-- `BTreeMap::insert`: replaces any existing entry for the key. -/
def LatencyMap.insertEntry (m : LatencyMap) (request_id start : Nat)
    (endT : Option Nat) : LatencyMap :=
  (request_id, start, endT) :: m.filter (fun e => e.1 != request_id)

/-- `BTreeMap::len` (src/histogram.rs lines 59-61). -/
def LatencyMap.len (m : LatencyMap) : Nat := m.length

/-- `LatencyMap::record` (src/histogram.rs lines 35-53): when an end time
is present, `end.checked_duration_since(start)` is `None` exactly when
`end < start`, in which case the call bails; otherwise the pair is
inserted exactly as given. -/
def LatencyMap.record (m : LatencyMap) (request_id start : Nat)
    (endT : Option Nat) : Except String LatencyMap :=
  match endT with
  | some end_time =>
    if end_time < start then .error "End time is before start time"
    else .ok (m.insertEntry request_id start endT)
  | none => .ok (m.insertEntry request_id start none)

/-- The ids `start_id..end_id` (exclusive of `end_id`) that both loops of
`histogram_from_id_range` iterate over (`for id in start_id..end_id`). -/
def idRangeList (start_id end_id : Nat) : List Nat :=
  List.range' start_id (end_id - start_id)

/-- Loop body of the `use_time_window = false` branch of
`histogram_from_id_range` (src/histogram.rs lines 131-175).  The running
state is the histogram plus the optional current `max_end_time`
(receive instant, duration since `start_time`). -/
def idWindowStep (m : LatencyMap) (start_time : Nat)
    (st : ManualHistogram × Option (Nat × Nat)) (id : Nat) :
    Except String (ManualHistogram × Option (Nat × Nat)) :=
  match m.get id with
  | none => .error "ID not found in map"
  | some (send_time, recv_time) =>
    match recv_time with
    | none => .error "ID has no recv time; cannot use id-based window with drops"
    | some recv =>
      let hist := st.1.record (recv - send_time)
      if recv < start_time then
        .error "recv_time is before send time of first id"
      else
        match st.2 with
        | some (cur_max_end, cur_max_time_since_start) =>
          if cur_max_time_since_start < recv - start_time then
            .ok (hist, some (recv, recv - start_time))
          else
            .ok (hist, some (cur_max_end, cur_max_time_since_start))
        | none => .ok (hist, some (recv, recv - start_time))

/-- Loop body of the `use_time_window = true` branch of
`histogram_from_id_range` (src/histogram.rs lines 197-211).  The running
state is the histogram plus `num_received`.  A receive time is counted
exactly when `last_sent_time.checked_duration_since(recv)` is not `None`,
i.e. when `recv ≤ last_sent_time`. -/
def timeWindowStep (m : LatencyMap) (last_sent_time : Nat)
    (st : ManualHistogram × Nat) (id : Nat) : Except String (ManualHistogram × Nat) :=
  match m.get id with
  | none => .error "ID not found in map"
  | some (send_time, recv_time) =>
    match recv_time with
    | none => .ok st
    | some recv =>
      if recv ≤ last_sent_time then
        .ok (st.1.record (recv - send_time), st.2 + 1)
      else
        .ok st

/-- `LatencyMap::histogram_from_id_range` (src/histogram.rs lines 88-216).
Returns (histogram, number sent, number received, send duration ns,
receive duration ns); the source converts the two durations to `f64`
seconds on return, a unit change kept in nanoseconds here.  The
`max_end_time.unwrap()` at line 190 cannot in fact fail (the range is
nonempty), but is embedded as an explicit panic-error for faithfulness. -/
def LatencyMap.histogram_from_id_range (m : LatencyMap) (start_id end_id : Nat)
    (use_time_window : Bool) :
    Except String (ManualHistogram × Nat × Nat × Nat × Nat) :=
  if end_id ≤ start_id then .error "start_id must be less than end_id"
  else
    match m.get start_id with
    | none => .error "start_id not found in map"
    | some s0 =>
      match m.get end_id with
      | none => .error "end_id not found in map"
      | some sE =>
        let start_time := s0.1
        let last_sent_time := sE.1
        if last_sent_time < start_time then
          .error "End time is before start time"
        else if !use_time_window then
          match (idRangeList start_id end_id).foldlM (idWindowStep m start_time)
              (ManualHistogram.new (end_id - start_id), none) with
          | .error e => .error e
          | .ok (histogram, max_end_time) =>
            let num_sent := end_id - start_id
            let num_received := histogram.len
            if histogram.len ≠ end_id - start_id then
              .error "Histogram length does not match expected"
            else
              match max_end_time with
              | none => .error "panic: unwrap on a None value"
              | some met =>
                .ok (histogram, num_sent, num_received,
                     last_sent_time - start_time, met.2)
        else
          let num_sent := end_id - start_id + 1
          match (idRangeList start_id end_id).foldlM (timeWindowStep m last_sent_time)
              (ManualHistogram.new (end_id - start_id), 0) with
          | .error e => .error e
          | .ok (histogram, num_received) =>
            .ok (histogram, num_sent, num_received,
                 last_sent_time - start_time, last_sent_time - start_time)

/-! ## Embedding of src/requests.rs -/

/-- Outcome of running a fallible Rust computation, distinguishing a
returned `Err` (recoverable) from a panic (`expect`, overflow, ...). -/
inductive RunResult (α : Type) where
  | ok (a : α)
  | err (msg : String)
  | panicked (msg : String)
deriving DecidableEq

/-- True exactly for `ok`. -/
def RunResult.isOk {α : Type} : RunResult α → Bool
  | .ok _ => true
  | _ => false

/-- True exactly for a returned recoverable `Err`. -/
def RunResult.isRecoverableErr {α : Type} : RunResult α → Bool
  | .err _ => true
  | _ => false

/-- Nonnegative `f64` values arising in requests.rs: a finite rational or
positive infinity (which `1e9 / 0.0` produces). -/
inductive NNFloat where
  | fin (q : ℚ)
  | posInf
deriving DecidableEq

/-- Rust `f64 as u64`: truncate toward zero, clamp negatives to 0 and
saturate at `u64::MAX`; infinity saturates to `u64::MAX`. -/
def NNFloat.toU64 : NNFloat → Nat
  | .fin q => min (⌊q⌋).toNat (2 ^ 64 - 1)
  | .posInf => 2 ^ 64 - 1

/-- `rate_pps_to_interarrival_nanos` (src/requests.rs lines 6-10):
`1_000_000_000.0 / rate as f64`, which is `+∞` for rate 0.  For positive
rates the `f64` quotient is modelled as the exact rational. -/
def rate_pps_to_interarrival_nanos (rate : Nat) : NNFloat :=
  if rate = 0 then .posInf else .fin (1000000000 / (rate : ℚ))

/-- `DistributionType` (src/requests.rs lines 17-21). -/
inductive DistributionType where
  | Uniform
  | Exponential
deriving DecidableEq

/-- `PacketDistribution` (src/requests.rs lines 23-27): `Uniform` holds
the interarrival already cast to `u64`; `Exponential` holds the `f64`
mean. -/
inductive PacketDistribution where
  | Uniform (interarrival_nanos : Nat)
  | Exponential (l : NNFloat)
deriving DecidableEq

/-- `PacketDistribution::new` (src/requests.rs lines 43-52).  Both arms
return `Ok`; the function has no error path. -/
def PacketDistribution.new (typ : DistributionType) (rate_pps : Nat) :
    Except String PacketDistribution :=
  let interarrival_nanos := rate_pps_to_interarrival_nanos rate_pps
  match typ with
  | .Uniform => .ok (.Uniform interarrival_nanos.toU64)
  | .Exponential => .ok (.Exponential interarrival_nanos)

/-- `PacketDistribution::get_interarrival_avg` (src/requests.rs lines
54-59). -/
def PacketDistribution.get_interarrival_avg : PacketDistribution → Nat
  | .Uniform x => x
  | .Exponential x => x.toU64

/-- `PacketDistribution::sample` (src/requests.rs lines 61-71), given the
exponential draw already cast to `u64`.  For `Exponential l` the source
builds `Exp::new(1.0 / l)` under an `expect`: for finite `l > 0` the rate
`1/l` is positive and construction succeeds; otherwise (`l = +∞`, so the
rate is `1/∞ = 0`, or a nonpositive `l`) `rand_distr` rejects the
parameter and the `expect` panics — in no version of the dependency does
sampling return a recoverable error. -/
def PacketDistribution.sample : PacketDistribution → Nat → RunResult Nat
  | .Uniform interarrival_nanos, _ => .ok interarrival_nanos
  | .Exponential l, draw =>
    match l with
    | .posInf => .panicked "Not able to make exponential distribution"
    | .fin q =>
      if 0 < q then .ok draw
      else .panicked "Not able to make exponential distribution"

/-- `RequestSchedule` (src/requests.rs lines 74-78); the `Duration`
interarrivals are nanosecond counts. -/
structure RequestSchedule where
  interarrivals : List Nat
  avg_interarrival : Nat
deriving DecidableEq

/-- The sampling loop of `RequestSchedule::new` (src/requests.rs lines
85-88): draw `n` samples, using `draws i` as the i-th random draw,
propagating a panic from `sample`. -/
def sampleLoop (d : PacketDistribution) (draws : Nat → Nat) :
    Nat → Nat → RunResult (List Nat)
  | _, 0 => .ok []
  | i, Nat.succ n =>
    match d.sample (draws i) with
    | .ok v =>
      match sampleLoop d draws (i + 1) n with
      | .ok rest => .ok (v :: rest)
      | .err e => .err e
      | .panicked e => .panicked e
    | .err e => .err e
    | .panicked e => .panicked e

/-- `RequestSchedule::new` (src/requests.rs lines 81-94): build the
distribution (wrapping any construction error) and pre-generate
`num_requests` interarrivals. -/
def RequestSchedule.new (num_requests rate_pps : Nat) (dist_type : DistributionType)
    (draws : Nat → Nat) : RunResult RequestSchedule :=
  match PacketDistribution.new dist_type rate_pps with
  | .error e => .err ("Failed to initialize distribution: " ++ e)
  | .ok distribution =>
    match sampleLoop distribution draws 0 num_requests with
    | .ok interarrivals => .ok ⟨interarrivals, distribution.get_interarrival_avg⟩
    | .err e => .err e
    | .panicked e => .panicked e

/-! ## Embedding of src/summary_stats.rs -/

/-- `SummaryHistogram` (src/summary_stats.rs lines 10-19).  The `BTreeMap`
from bucket to count is modelled as a total function defaulting to 0,
matching `entry(bucket).or_insert(0)`. -/
structure SummaryHistogram where
  precision : Option Nat
  map : Nat → Nat
  count : Nat

/-- `SummaryHistogram::default` (src/summary_stats.rs lines 21-29). -/
def SummaryHistogram.empty : SummaryHistogram := ⟨none, fun _ => 0, 0⟩

/-- `SummaryHistogram::record` (src/summary_stats.rs lines 41-52): with a
precision the bucket is `(latency / precision + 1) * precision` (integer
division); without one the exact latency is the bucket.  The source never
calls this with precision 0 (that division would panic). -/
def SummaryHistogram.record (h : SummaryHistogram) (latency : Nat) : SummaryHistogram :=
  match h.precision with
  | some precision =>
    let divisor := latency / precision
    let bucket := (divisor + 1) * precision
    { h with map := fun k => if k = bucket then h.map k + 1 else h.map k,
             count := h.count + 1 }
  | none =>
    { h with map := fun k => if k = latency then h.map k + 1 else h.map k,
             count := h.count + 1 }

/-- `SummaryHistogram::from_manual` (src/summary_stats.rs lines 32-39):
record every value in the active region of the manual histogram.  The source
returns `Result` but never fails. -/
def SummaryHistogram.from_manual (precision : Option Nat) (manual_hist : ManualHistogram) :
    SummaryHistogram :=
  manual_hist.latencies_vec.foldl SummaryHistogram.record
    { SummaryHistogram.empty with precision := precision }

/-- `SummaryStats` (src/summary_stats.rs lines 67-74); the two `f64`
second durations are kept as nanosecond counts. -/
structure SummaryStats where
  histogram : SummaryHistogram
  total_objects_sent : Nat
  total_objects_recv : Nat
  send_time_ns : Nat
  receive_time_ns : Nat

/-- The `start_id` computed by `SummaryStats::new` (src/summary_stats.rs
line 92): `(rate * warmup).ceil() as usize`. -/
def SummaryStats.start_id (rate_seconds : ℚ) (warmup_time_seconds : Nat) : Nat :=
  (⌈rate_seconds * (warmup_time_seconds : ℚ)⌉).toNat

/-- The `end_id` computed by `SummaryStats::new` before clamping
(src/summary_stats.rs lines 93-94):
`(rate * (exp_time - cooldown)).floor() as usize`. -/
def SummaryStats.end_id_unclamped (rate_seconds : ℚ)
    (exp_time_seconds cooldown_time_seconds : Nat) : Nat :=
  (⌊rate_seconds * ((exp_time_seconds - cooldown_time_seconds : Nat) : ℚ)⌋).toNat

/-- `SummaryStats::new` (src/summary_stats.rs lines 77-120).  The two
`usize` subtractions (`exp_time - cooldown` and `latency_map.len() - 1`)
are truncated `Nat` subtractions here; in Rust they would panic on
underflow, so theorems about this definition carry the side conditions
`cooldown ≤ exp_time` and `1 ≤ len` under which the embedding is
faithful. -/
def SummaryStats.new (rate_seconds : ℚ) (exp_time_seconds : Nat)
    (latency_map : LatencyMap) (warmup_time_seconds cooldown_time_seconds : Nat)
    (use_time_window : Bool) (histogram_precision : Option Nat) :
    Except String SummaryStats :=
  if exp_time_seconds - cooldown_time_seconds < warmup_time_seconds then
    .error "Warmup time must be less than experiment time - cooldown time"
  else
    let start_id := SummaryStats.start_id rate_seconds warmup_time_seconds
    let end_id0 := SummaryStats.end_id_unclamped rate_seconds exp_time_seconds
        cooldown_time_seconds
    let end_id := if latency_map.len - 1 < end_id0 then latency_map.len - 1 else end_id0
    match latency_map.histogram_from_id_range start_id end_id use_time_window with
    | .error e => .error e
    | .ok (histogram, total_sent, total_recv, send_time, recv_time) =>
      .ok ⟨SummaryHistogram.from_manual histogram_precision histogram,
           total_sent, total_recv, send_time, recv_time⟩

/-! ## Supporting lemmas about ManualHistogram -/

theorem ManualHistogram.record_sorted_latencies (h : ManualHistogram) (v : Nat) :
    (h.record v).sorted_latencies = h.sorted_latencies := by
  unfold ManualHistogram.record
  split <;> rfl

theorem ManualHistogram.recordAll_sorted_latencies (vals : List Nat) (h : ManualHistogram) :
    (h.recordAll vals).sorted_latencies = h.sorted_latencies := by
  induction vals generalizing h with
  | nil => rfl
  | cons v vs ih =>
    show ((h.record v).recordAll vs).sorted_latencies = h.sorted_latencies
    rw [ih, ManualHistogram.record_sorted_latencies]

theorem ManualHistogram.record_spec (h : ManualHistogram) (v : Nat)
    (hle : h.current_count ≤ h.latencies.length) :
    (h.record v).latencies_vec = h.latencies_vec ++ [v] ∧
    (h.record v).current_count = h.current_count + 1 ∧
    (h.record v).current_count ≤ (h.record v).latencies.length := by
  unfold ManualHistogram.record ManualHistogram.latencies_vec
  split
  · rename_i hcc
    refine ⟨?_, rfl, by simpa using hle⟩
    rw [hcc, List.take_length, List.take_of_length_le (by simp)]
  · rename_i hcc
    have hlt : h.current_count < h.latencies.length := lt_of_le_of_ne hle hcc
    refine ⟨?_, rfl, by simp [Nat.succ_le_of_lt hlt]⟩
    show (h.latencies.set h.current_count v).take (h.current_count + 1) =
      h.latencies.take h.current_count ++ [v]
    rw [List.set_take, List.take_succ, List.getElem?_eq_getElem hlt]
    show (h.latencies.take h.current_count ++ [h.latencies[h.current_count]]).set
        h.current_count v = h.latencies.take h.current_count ++ [v]
    have hlen : (h.latencies.take h.current_count).length = h.current_count := by
      simp [Nat.le_of_lt hlt]
    rw [List.set_append_right _ _ hlen.le, hlen, Nat.sub_self]
    rfl

theorem ManualHistogram.recordAll_spec (vals : List Nat) (h : ManualHistogram)
    (hle : h.current_count ≤ h.latencies.length) :
    (h.recordAll vals).latencies_vec = h.latencies_vec ++ vals ∧
    (h.recordAll vals).current_count = h.current_count + vals.length ∧
    (h.recordAll vals).current_count ≤ (h.recordAll vals).latencies.length := by
  induction vals generalizing h with
  | nil => exact ⟨by simp [ManualHistogram.recordAll], by simp [ManualHistogram.recordAll], hle⟩
  | cons v vs ih =>
    obtain ⟨h1, h2, h3⟩ := ManualHistogram.record_spec h v hle
    obtain ⟨i1, i2, i3⟩ := ih (h.record v) h3
    refine ⟨?_, ?_, i3⟩
    · show ((h.record v).recordAll vs).latencies_vec = _
      rw [i1, h1, List.append_assoc]
      rfl
    · show ((h.record v).recordAll vs).current_count = _
      rw [i2, h2]
      simp [Nat.add_assoc, Nat.add_comm 1 vs.length]

theorem ManualHistogram.new_recordAll_spec (k : Nat) (vals : List Nat) :
    ((ManualHistogram.new k).recordAll vals).latencies_vec = vals ∧
    ((ManualHistogram.new k).recordAll vals).current_count = vals.length := by
  have h := ManualHistogram.recordAll_spec vals (ManualHistogram.new k) (by simp [ManualHistogram.new])
  have hnil : (ManualHistogram.new k).latencies_vec = [] := by
    simp [ManualHistogram.new, ManualHistogram.latencies_vec]
  refine ⟨?_, ?_⟩
  · rw [h.1, hnil]; rfl
  · rw [h.2.1]; simp [ManualHistogram.new]

theorem ManualHistogram.sort_sorted_latencies (h : ManualHistogram) :
    (h.sort).sorted_latencies = List.insertionSort (· ≤ ·) h.latencies_vec := rfl

/-! ## Supporting lemmas about the quantile index -/

theorem quantileIndex_lt (n : Nat) (q : ℚ) (hn : 1 ≤ n) (h0 : 0 ≤ q) (h1 : q < 1) :
    quantileIndex n q < n := by
  unfold quantileIndex
  have h2 : (n : ℚ) * q < (n : ℚ) := by
    calc (n : ℚ) * q < (n : ℚ) * 1 := by
          apply mul_lt_mul_of_pos_left h1
          exact_mod_cast Nat.lt_of_lt_of_le Nat.zero_lt_one hn
    _ = (n : ℚ) := mul_one _
  have h3 : ⌊(n : ℚ) * q⌋ < (n : ℤ) := Int.floor_lt.mpr (by exact_mod_cast h2)
  omega

theorem quantileIndex_ge (n : Nat) (q : ℚ) (h1 : 1 ≤ q) : n ≤ quantileIndex n q := by
  unfold quantileIndex
  have h2 : (n : ℚ) ≤ (n : ℚ) * q := le_mul_of_one_le_right (by positivity) h1
  have h3 : (n : ℤ) ≤ ⌊(n : ℚ) * q⌋ := Int.le_floor.mpr (by exact_mod_cast h2)
  omega

/-! ## Claim C1 (spin-timer deficit accounting) -/

/-- C1, counterexample.  The claim states that `SpinTimer` keeps a deficit
accumulator and that `wait()` resolves immediately (zero wait) whenever the
accumulated deficit exceeds the next sampled interval.  In the code,
`SpinTimer` has no deficit field at all: at the concrete sampled interval
of 50 ns — which any positive deficit would exceed — `wait` still arms a
100 ns wait (the short-sample floor), not an immediate resolution, and the
timer state after the call is identical to the state before it, so no
overshoot is ever carried to later ticks. -/
theorem spin_timer_no_deficit_cex :
    (SpinTimer.waitStep ⟨1000000, none⟩ 50).1.wait_ns = 100 ∧
    (SpinTimer.waitStep ⟨1000000, none⟩ 50).2 = ⟨1000000, none⟩ ∧
    (100 : Nat) ≠ 0 := by
  refine ⟨rfl, rfl, by decide⟩

/-- C1, amended.  `SpinTimer::wait` performs no deficit accounting: every
call leaves the timer state unchanged (the state has no deficit
accumulator to update), the armed wait is always at least 100 ns — never
an immediate resolution — and equals the sampled interarrival except that
samples below 100 ns are clamped up to 100 ns. -/
theorem spin_timer_wait_stateless (t : SpinTimer) (sampled_ns : Nat) :
    (SpinTimer.waitStep t sampled_ns).2 = t ∧
    100 ≤ (SpinTimer.waitStep t sampled_ns).1.wait_ns ∧
    (100 ≤ sampled_ns → (SpinTimer.waitStep t sampled_ns).1.wait_ns = sampled_ns) ∧
    (sampled_ns < 100 → (SpinTimer.waitStep t sampled_ns).1.wait_ns = 100) := by
  unfold SpinTimer.waitStep
  refine ⟨rfl, ?_, ?_, ?_⟩
  · dsimp only
    split <;> omega
  · intro h
    dsimp only
    rw [if_neg (by omega)]
  · intro h
    dsimp only
    rw [if_pos h]

/-- C1, witness for the amended theorem: a 250 ns sample is waited out in
full. -/
theorem spin_timer_wait_stateless_witness :
    (SpinTimer.waitStep ⟨1000000, none⟩ 250).1.wait_ns = 250 :=
  (spin_timer_wait_stateless ⟨1000000, none⟩ 250).2.2.1 (by decide)

/-! ## Claim C2 (terminal conditions / done) -/

/-- C2, counterexample.  The claim states that both ticker variants stop
producing ticks once a terminal condition ("schedule exhausted" or
"deadline reached") holds, reporting it via `done()`.  The code has no
`done` operation and no schedule length or deadline: at the concrete
states below, both `Stream::poll_next` implementations yield another tick
`Ready(Some(()))`, which is distinct from the end-of-stream
`Ready(None)` that a terminated stream would produce. -/
theorem ticker_never_done_cex :
    SpinTicker.stream_poll_next true = Poll.ready (some ()) ∧
    (TimerTicker.stream_poll_next ⟨true, 1000, none⟩ 50 false).1 = Poll.ready (some ()) ∧
    Poll.ready (some ()) ≠ (Poll.ready none : Poll (Option Unit)) := by
  refine ⟨rfl, rfl, by decide⟩

/-- C2, amended.  Neither ticker has a `done()` operation or any terminal
condition: both `Stream::poll_next` implementations forward the future
poll result with every completed tick wrapped as `Some(())`, and never
return `Ready(None)`, so the tickers produce ticks indefinitely. -/
theorem ticker_never_done (b : Bool) (t : TimerTickerState) (sampled_ns : Nat)
    (timer_fired : Bool) :
    SpinTicker.stream_poll_next b ≠ Poll.ready none ∧
    (TimerTicker.stream_poll_next t sampled_ns timer_fired).1 ≠ Poll.ready none := by
  constructor
  · unfold SpinTicker.stream_poll_next SpinTicker.pollStep
    split <;> simp [Poll.map]
  · unfold TimerTicker.stream_poll_next TimerTicker.pollStep
    dsimp only
    split <;> split <;> first
      | (split <;> simp [Poll.map])
      | simp [Poll.map]

/-- C2, witness for the amended theorem at concrete inputs: a ready spin
tick and a fired OS timer both yield `Some(())`, not end-of-stream. -/
theorem ticker_never_done_witness :
    SpinTicker.stream_poll_next true ≠ Poll.ready none ∧
    (TimerTicker.stream_poll_next ⟨false, 1000, none⟩ 500 true).1 ≠ Poll.ready none :=
  ⟨(ticker_never_done true ⟨false, 1000, none⟩ 500 true).1,
   (ticker_never_done true ⟨false, 1000, none⟩ 500 true).2⟩

/-! ## Claim C3 (histograms over the example map with a drop) -/

/-- The concrete LatencyMap of the claim: id 1 sent at `t0 = 0` and
received at `t0 + 10 ms`; id 2 sent at `t0 + 5 ms` and dropped. -/
def mapC3 : LatencyMap := [(1, 0, some 10000000), (2, 5000000, none)]

/-- C3, counterexample.  The claim states that
`histogram_from_id_range(1, 2, false)` fails because id 2 lacks a receive
time.  It in fact succeeds: both loops iterate over `start_id..end_id`
exclusive of `end_id`, so id 2 is never examined, and id 1 has a receive
time.  The call returns the single 10 ms latency with sent = received
= 1. -/
theorem histogram_id_range_cex :
    mapC3.histogram_from_id_range 1 2 false =
      Except.ok (⟨1, [10000000], [], false⟩, 1, 1, 5000000, 10000000) := rfl

/-- C3, amended.  On the map {1 ↦ (t0, t0+10ms), 2 ↦ (t0+5ms, dropped)}:
`histogram_from_id_range(1, 2, false)` succeeds — the id loop covers only
the half-open range `[1, 2)`, so the dropped id 2 is outside it — and
returns the histogram {10 ms} with sent = 1, received = 1, send duration
5 ms and receive duration 10 ms; `histogram_from_id_range(1, 2, true)`
also succeeds, with sent = 2 and received = 0 (id 2 is counted as sent but
not received, and id 1 is also not counted because its reply arrived after
id 2 was sent, outside the time window), with both durations 5 ms. -/
theorem histogram_id_range_on_mapC3 :
    mapC3.histogram_from_id_range 1 2 false =
      Except.ok (⟨1, [10000000], [], false⟩, 1, 1, 5000000, 10000000) ∧
    mapC3.histogram_from_id_range 1 2 true =
      Except.ok (⟨0, [0], [], false⟩, 2, 0, 5000000, 5000000) := ⟨rfl, rfl⟩

/-! ## Claim C7 (nearest-rank quantiles after sort) -/

/-- C7.  For a ManualHistogram holding the recorded values `vals` (with
`vals ≠ []`) on which `sort()` has been called, and any quantile
`0 ≤ q < 1`, `value_at_quantile q` returns the element at index
`⌊vals.length * q⌋` of the ascending sorted copy of the recorded values
(nearest-rank, no interpolation); that index is in bounds, and the sorted
copy is an ascending permutation of the recorded values. -/
theorem value_at_quantile_nearest_rank (k : Nat) (vals : List Nat) (q : ℚ)
    (hne : vals ≠ []) (h0 : 0 ≤ q) (h1 : q < 1) :
    (((ManualHistogram.new k).recordAll vals).sort).value_at_quantile q =
      Except.ok ((List.insertionSort (· ≤ ·) vals).getD (quantileIndex vals.length q) 0) ∧
    quantileIndex vals.length q < vals.length ∧
    (List.insertionSort (· ≤ ·) vals).Sorted (· ≤ ·) ∧
    List.Perm (List.insertionSort (· ≤ ·) vals) vals := by
  have hvec := (ManualHistogram.new_recordAll_spec k vals).1
  have hsorted : (((ManualHistogram.new k).recordAll vals).sort).sorted_latencies =
      List.insertionSort (· ≤ ·) vals := by
    rw [ManualHistogram.sort_sorted_latencies, hvec]
  have hlen : (List.insertionSort (· ≤ ·) vals).length = vals.length :=
    List.length_insertionSort _ _
  have hn : 1 ≤ vals.length := List.length_pos.mpr hne
  have hidx := quantileIndex_lt vals.length q hn h0 h1
  refine ⟨?_, hidx, List.sorted_insertionSort _ _, List.perm_insertionSort _ _⟩
  unfold ManualHistogram.value_at_quantile
  rw [hsorted, hlen, if_neg (by omega), List.getElem?_eq_getElem (hlen ▸ hidx)]
  rw [List.getD_eq_getElem?_getD, List.getElem?_eq_getElem (hlen ▸ hidx)]
  rfl

/-- C7, witness: recording [5, 3, 9], sorting, and querying the median
gives the middle value 5 (sorted copy [3, 5, 9], index ⌊3 · 1/2⌋ = 1). -/
theorem value_at_quantile_nearest_rank_witness :
    (((ManualHistogram.new 0).recordAll [5, 3, 9]).sort).value_at_quantile (1 / 2) =
      Except.ok 5 := by
  have h := (value_at_quantile_nearest_rank 0 [5, 3, 9] (1 / 2) (by decide) (by norm_num)
    (by norm_num)).1
  have hq : quantileIndex (List.length [5, 3, 9]) (1 / 2) = 1 := by
    norm_num [quantileIndex]
  rw [h, hq]
  rfl

/-! ## Claim C8 (quantile query before sort fails) -/

/-- C8.  On any ManualHistogram built by `new` or `new_from_vec` followed
by any sequence of `record` calls — i.e. any histogram on which `sort` has
not been called — `value_at_quantile` returns an error, for every quantile
and regardless of how many values were recorded. -/
theorem value_at_quantile_before_sort_fails (k : Nat) (init vals : List Nat) (q : ℚ) :
    ((ManualHistogram.new k).recordAll vals).value_at_quantile q =
      Except.error "Cannot run value_at_quantile until sort() has been called." ∧
    ((ManualHistogram.new_from_vec init).recordAll vals).value_at_quantile q =
      Except.error "Cannot run value_at_quantile until sort() has been called." := by
  have h1 := ManualHistogram.recordAll_sorted_latencies vals (ManualHistogram.new k)
  have h2 := ManualHistogram.recordAll_sorted_latencies vals (ManualHistogram.new_from_vec init)
  constructor
  · unfold ManualHistogram.value_at_quantile
    rw [h1]
    rfl
  · unfold ManualHistogram.value_at_quantile
    rw [h2]
    rfl

/-! ## Claim C10 (quantile index bounds) -/

/-- C10.  On a sorted ManualHistogram with `n = vals.length ≥ 1` recorded
values, the index `⌊n * q⌋` computed by `value_at_quantile` is strictly
below `n` for every `0 ≤ q < 1`, so the lookup into the sorted buffer
succeeds; for every `q ≥ 1` the index is at least `n`, outside the sorted
buffer, so the lookup is out of bounds (a Rust index panic) rather than
returning the maximum. -/
theorem quantile_index_bounds (k : Nat) (vals : List Nat) (q : ℚ) (hne : vals ≠ []) :
    (0 ≤ q → q < 1 →
      quantileIndex vals.length q < vals.length ∧
      ∃ v, (((ManualHistogram.new k).recordAll vals).sort).value_at_quantile q =
        Except.ok v) ∧
    (1 ≤ q →
      vals.length ≤ quantileIndex vals.length q ∧
      (((ManualHistogram.new k).recordAll vals).sort).value_at_quantile q =
        Except.error "index out of bounds") := by
  have hvec := (ManualHistogram.new_recordAll_spec k vals).1
  have hsorted : (((ManualHistogram.new k).recordAll vals).sort).sorted_latencies =
      List.insertionSort (· ≤ ·) vals := by
    rw [ManualHistogram.sort_sorted_latencies, hvec]
  have hlen : (List.insertionSort (· ≤ ·) vals).length = vals.length :=
    List.length_insertionSort _ _
  have hn : 1 ≤ vals.length := List.length_pos.mpr hne
  constructor
  · intro h0 h1
    have hidx := quantileIndex_lt vals.length q hn h0 h1
    refine ⟨hidx, ?_⟩
    unfold ManualHistogram.value_at_quantile
    rw [hsorted, hlen, if_neg (by omega), List.getElem?_eq_getElem (hlen ▸ hidx)]
    exact ⟨_, rfl⟩
  · intro h1
    have hidx := quantileIndex_ge vals.length q h1
    refine ⟨hidx, ?_⟩
    unfold ManualHistogram.value_at_quantile
    rw [hsorted, hlen, if_neg (by omega), List.getElem?_eq_none (by omega)]

/-- C10, witness: with two recorded values, quantile 0 succeeds (index 0)
and quantile exactly 1 computes index 2, out of bounds for the two-element
sorted buffer, and fails. -/
theorem quantile_index_bounds_witness :
    quantileIndex 2 1 = 2 ∧
    (((ManualHistogram.new 0).recordAll [4, 7]).sort).value_at_quantile 1 =
      Except.error "index out of bounds" := by
  have h := (quantile_index_bounds 0 [4, 7] 1 (by decide)).2 (by norm_num)
  refine ⟨?_, h.2⟩
  norm_num [quantileIndex]
  rfl

/-! ## Claim C9 (LatencyMap.record validation) -/

/-- C9.  `LatencyMap.record(id, sent, received)` returns an error exactly
when a received time is present and is earlier than the sent time; when it
succeeds, the map afterwards holds exactly the pair (sent, received) at
key id — the values are stored as given, never clamped or corrected. -/
theorem latency_map_record_validates (m : LatencyMap) (id s : Nat) (rcv : Option Nat) :
    (∀ e, rcv = some e →
      ((m.record id s rcv = Except.error "End time is before start time") ↔ e < s)) ∧
    (rcv = none → m.record id s rcv = Except.ok (m.insertEntry id s none)) ∧
    (∀ m2, m.record id s rcv = Except.ok m2 →
      m2 = m.insertEntry id s rcv ∧ m2.get id = some (s, rcv)) := by
  have hget : (m.insertEntry id s rcv).get id = some (s, rcv) := by
    unfold LatencyMap.get LatencyMap.insertEntry
    rw [List.find?_cons_of_pos _ (by simp)]
    rfl
  refine ⟨?_, ?_, ?_⟩
  · rintro e rfl
    simp only [LatencyMap.record]
    constructor
    · intro h
      by_contra hlt
      rw [if_neg hlt] at h
      exact Except.noConfusion h
    · intro h
      rw [if_pos h]
  · rintro rfl
    rfl
  · intro m2 h
    cases rcv with
    | none =>
      simp only [LatencyMap.record] at h
      cases h
      exact ⟨rfl, hget⟩
    | some e =>
      simp only [LatencyMap.record] at h
      by_cases hlt : e < s
      · rw [if_pos hlt] at h
        exact Except.noConfusion h
      · rw [if_neg hlt] at h
        cases h
        exact ⟨rfl, hget⟩

/-- C9, witness: a receive time of 3 before a send time of 5 is rejected,
and a valid pair (5, 7) is stored exactly at its id. -/
theorem latency_map_record_validates_witness :
    (LatencyMap.record [] 0 5 (some 3) = Except.error "End time is before start time") ∧
    (LatencyMap.insertEntry [] 0 5 (some 7)).get 0 = some (5, some 7) := by
  refine ⟨((latency_map_record_validates [] 0 5 (some 3)).1 3 rfl).mpr (by norm_num), ?_⟩
  exact ((latency_map_record_validates [] 0 5 (some 7)).2.2
    (LatencyMap.insertEntry [] 0 5 (some 7)) rfl).2

/-! ## Claim C6 (SummaryHistogram ceiling bucketing) -/

/-- C6.  With a configured precision `p > 0`, `SummaryHistogram.record v`
increments exactly the bucket `(v / p + 1) * p` (ceiling bucketing) and
the total count; with no precision configured it increments exactly the
bucket `v`. -/
theorem summary_histogram_record_bucketing (h : SummaryHistogram) (v p : Nat) :
    (h.precision = some p → 0 < p →
      (h.record v).map ((v / p + 1) * p) = h.map ((v / p + 1) * p) + 1 ∧
      (∀ b, b ≠ (v / p + 1) * p → (h.record v).map b = h.map b) ∧
      (h.record v).count = h.count + 1) ∧
    (h.precision = none →
      (h.record v).map v = h.map v + 1 ∧
      (∀ b, b ≠ v → (h.record v).map b = h.map b) ∧
      (h.record v).count = h.count + 1) := by
  constructor
  · intro hp _
    unfold SummaryHistogram.record
    rw [hp]
    exact ⟨by simp, fun b hb => by simp [hb], rfl⟩
  · intro hp
    unfold SummaryHistogram.record
    rw [hp]
    exact ⟨by simp, fun b hb => by simp [hb], rfl⟩

/-- C6, witness: with precision 1,000,000 ns, a latency of exactly
1,000,000 ns is counted in bucket 2,000,000 and a latency of 999,999 ns in
bucket 1,000,000. -/
theorem summary_histogram_record_bucketing_witness :
    (SummaryHistogram.record ⟨some 1000000, fun _ => 0, 0⟩ 1000000).map 2000000 = 0 + 1 ∧
    (SummaryHistogram.record ⟨some 1000000, fun _ => 0, 0⟩ 999999).map 1000000 = 0 + 1 := by
  have h1 := ((summary_histogram_record_bucketing ⟨some 1000000, fun _ => 0, 0⟩
    1000000 1000000).1 rfl (by norm_num)).1
  have h2 := ((summary_histogram_record_bucketing ⟨some 1000000, fun _ => 0, 0⟩
    999999 1000000).1 rfl (by norm_num)).1
  have e1 : (1000000 / 1000000 + 1) * 1000000 = 2000000 := by norm_num
  have e2 : (999999 / 1000000 + 1) * 1000000 = 1000000 := by norm_num
  rw [e1] at h1
  rw [e2] at h2
  exact ⟨h1, h2⟩

/-! ## Claim C5 (SummaryStats window computation) -/

/-- C5.  Under the side conditions that make the embedding faithful
(`cooldown ≤ exp_time`, nonempty map — the Rust `usize` subtractions would
otherwise panic), `SummaryStats::new` fails when
`warmup > exp_time - cooldown`; otherwise it delegates to the latency
windowed histogram of the latency map over `start_id = ⌈rate * warmup⌉` and
`end_id = ⌊rate * (exp_time - cooldown)⌋` clamped down to `map.len() - 1`
when it overruns.  At rate 1000, experiment 10 s, warmup 2 s, cooldown 1 s
the ids before clamping are 2000 and 9000. -/
theorem summary_stats_window (rate : ℚ) (exp_time warmup cooldown : Nat) (m : LatencyMap)
    (utw : Bool) (prec : Option Nat) (hc : cooldown ≤ exp_time) (hm : 1 ≤ m.len) :
    (exp_time - cooldown < warmup →
      SummaryStats.new rate exp_time m warmup cooldown utw prec =
        Except.error "Warmup time must be less than experiment time - cooldown time") ∧
    (warmup ≤ exp_time - cooldown →
      SummaryStats.new rate exp_time m warmup cooldown utw prec =
        match m.histogram_from_id_range (SummaryStats.start_id rate warmup)
            (min (SummaryStats.end_id_unclamped rate exp_time cooldown) (m.len - 1)) utw with
        | .error e => .error e
        | .ok (hist, sent, recv, st, rt) =>
          .ok ⟨SummaryHistogram.from_manual prec hist, sent, recv, st, rt⟩) ∧
    SummaryStats.start_id 1000 2 = 2000 ∧
    SummaryStats.end_id_unclamped 1000 10 1 = 9000 := by
  refine ⟨?_, ?_, ?_, ?_⟩
  · intro h
    unfold SummaryStats.new
    rw [if_pos h]
  · intro h
    have he : (if m.len - 1 < SummaryStats.end_id_unclamped rate exp_time cooldown
        then m.len - 1 else SummaryStats.end_id_unclamped rate exp_time cooldown) =
        min (SummaryStats.end_id_unclamped rate exp_time cooldown) (m.len - 1) := by
      rw [Nat.min_def]
      split <;> split <;> omega
    simp only [SummaryStats.new]
    rw [if_neg (by omega), he]
  · unfold SummaryStats.start_id
    norm_num
    omega
  · unfold SummaryStats.end_id_unclamped
    norm_num
    omega

/-- C5, witness: warmup 8 s with cooldown 3 s in a 10 s experiment is
rejected, since 8 > 10 − 3. -/
theorem summary_stats_window_witness :
    SummaryStats.new 1000 10 [(0, 0, none)] 8 3 false none =
      Except.error "Warmup time must be less than experiment time - cooldown time" :=
  (summary_stats_window 1000 10 8 3 [(0, 0, none)] false none (by norm_num)
    (by norm_num [LatencyMap.len])).1 (by norm_num)

/-! ## Claim C4 (RequestSchedule construction at rate 0) -/

theorem sampleLoop_uniform (x : Nat) (draws : Nat → Nat) :
    ∀ (n i : Nat), sampleLoop (PacketDistribution.Uniform x) draws i n =
      RunResult.ok (List.replicate n x) := by
  intro n
  induction n with
  | zero => intro i; rfl
  | succ k ih =>
    intro i
    show (match sampleLoop (PacketDistribution.Uniform x) draws (i + 1) k with
      | RunResult.ok rest => RunResult.ok (x :: rest)
      | RunResult.err e => RunResult.err e
      | RunResult.panicked e => RunResult.panicked e) = _
    rw [ih (i + 1)]
    rfl

theorem sampleLoop_all_ok (d : PacketDistribution) (draws : Nat → Nat)
    (h : ∀ dr, ∃ v, d.sample dr = RunResult.ok v) :
    ∀ (n i : Nat), ∃ l, sampleLoop d draws i n = RunResult.ok l := by
  intro n
  induction n with
  | zero => intro i; exact ⟨[], rfl⟩
  | succ k ih =>
    intro i
    obtain ⟨v, hv⟩ := h (draws i)
    obtain ⟨l, hl⟩ := ih (i + 1)
    refine ⟨v :: l, ?_⟩
    show (match d.sample (draws i) with
      | RunResult.ok v =>
        (match sampleLoop d draws (i + 1) k with
          | RunResult.ok rest => RunResult.ok (v :: rest)
          | RunResult.err e => RunResult.err e
          | RunResult.panicked e => RunResult.panicked e)
      | RunResult.err e => RunResult.err e
      | RunResult.panicked e => RunResult.panicked e) = _
    rw [hv, hl]

/-- C4, counterexample.  The claim states that `RequestSchedule::new`
returns a recoverable error whenever the rate is nonpositive, in
particular for rate 0 with the Uniform kind.  At the concrete input
(count 1, rate 0, Uniform) it instead silently succeeds: `1e9 / 0.0` is
`+∞`, the `as u64` cast saturates it to `u64::MAX`, and the schedule is
built with that interarrival. -/
theorem request_schedule_rate_zero_cex :
    RequestSchedule.new 1 0 DistributionType.Uniform (fun _ => 0) =
      RunResult.ok ⟨[2 ^ 64 - 1], 2 ^ 64 - 1⟩ ∧
    (RequestSchedule.new 1 0 DistributionType.Uniform (fun _ => 0)).isRecoverableErr = false := by
  exact ⟨rfl, rfl⟩

/-- C4, amended.  `RequestSchedule::new` never reports rate 0 as a
recoverable error: with the Uniform kind it silently succeeds, every
interarrival (and the stored average) saturated to `u64::MAX` ns; with the
Exponential kind it is never a returned `Err` either (sampling panics in
the `expect`, or — with count 0 — the loop never samples and construction
succeeds).  For every positive rate construction succeeds, and
`PacketDistribution::new` itself has no error path at all. -/
theorem request_schedule_new_rate_zero (n : Nat) (draws : Nat → Nat) :
    RequestSchedule.new n 0 DistributionType.Uniform draws =
      RunResult.ok ⟨List.replicate n (2 ^ 64 - 1), 2 ^ 64 - 1⟩ ∧
    (RequestSchedule.new n 0 DistributionType.Exponential draws).isRecoverableErr = false ∧
    (∀ rate typ, 1 ≤ rate → (RequestSchedule.new n rate typ draws).isOk = true) ∧
    (∀ rate typ, ∃ d, PacketDistribution.new typ rate = Except.ok d) := by
  refine ⟨?_, ?_, ?_, ?_⟩
  · show (match sampleLoop (PacketDistribution.Uniform (2 ^ 64 - 1)) draws 0 n with
      | RunResult.ok interarrivals =>
        RunResult.ok (RequestSchedule.mk interarrivals
          (PacketDistribution.Uniform (2 ^ 64 - 1)).get_interarrival_avg)
      | RunResult.err e => RunResult.err e
      | RunResult.panicked e => RunResult.panicked e) = _
    rw [sampleLoop_uniform]
    rfl
  · cases n <;> rfl
  · intro rate typ hrate
    have hne : rate ≠ 0 := by omega
    cases typ with
    | Uniform =>
      show (match sampleLoop
          (PacketDistribution.Uniform (rate_pps_to_interarrival_nanos rate).toU64)
          draws 0 n with
        | RunResult.ok interarrivals =>
          RunResult.ok (RequestSchedule.mk interarrivals
            (PacketDistribution.Uniform
              (rate_pps_to_interarrival_nanos rate).toU64).get_interarrival_avg)
        | RunResult.err e => RunResult.err e
        | RunResult.panicked e => RunResult.panicked e).isOk = true
      rw [sampleLoop_uniform]
      rfl
    | Exponential =>
      have hq : (0 : ℚ) < 1000000000 / (rate : ℚ) := by
        apply div_pos (by norm_num)
        exact_mod_cast Nat.pos_of_ne_zero hne
      have hfin : rate_pps_to_interarrival_nanos rate =
          NNFloat.fin (1000000000 / (rate : ℚ)) := by
        unfold rate_pps_to_interarrival_nanos
        rw [if_neg hne]
      have hsample : ∀ dr, ∃ v,
          (PacketDistribution.Exponential (rate_pps_to_interarrival_nanos rate)).sample dr =
            RunResult.ok v := by
        intro dr
        refine ⟨dr, ?_⟩
        rw [hfin]
        show (if (0 : ℚ) < 1000000000 / (rate : ℚ) then RunResult.ok dr
          else RunResult.panicked "Not able to make exponential distribution") = _
        rw [if_pos hq]
      obtain ⟨l, hl⟩ := sampleLoop_all_ok
        (PacketDistribution.Exponential (rate_pps_to_interarrival_nanos rate)) draws hsample n 0
      show (match sampleLoop
          (PacketDistribution.Exponential (rate_pps_to_interarrival_nanos rate)) draws 0 n with
        | RunResult.ok interarrivals =>
          RunResult.ok (RequestSchedule.mk interarrivals
            (PacketDistribution.Exponential
              (rate_pps_to_interarrival_nanos rate)).get_interarrival_avg)
        | RunResult.err e => RunResult.err e
        | RunResult.panicked e => RunResult.panicked e).isOk = true
      rw [hl]
      rfl
  · intro rate typ
    cases typ with
    | Uniform => exact ⟨_, rfl⟩
    | Exponential => exact ⟨_, rfl⟩

/-- C4, witness for the amended theorem: a positive rate of 1 with the
Exponential kind constructs a two-entry schedule successfully. -/
theorem request_schedule_new_rate_zero_witness :
    (RequestSchedule.new 2 1 DistributionType.Exponential (fun _ => 7)).isOk = true :=
  (request_schedule_new_rate_zero 2 (fun _ => 7)).2.2.1 1 DistributionType.Exponential
    (by norm_num)
